import Mathlib

/-!
Verification development for a minimal bug-reproduction repository: a Hardhat 3
project whose Solidity test fixtures call the bytecode-lookup cheatcode
vm.getCode and assert on its success or expected failure.  The repository
itself contains only fixtures (Solidity contracts, a test suite, a build-tool
configuration, and a shell script); the artifact-lookup capability under test
lives in the external tool and is modelled here from the specification of its
expected behaviour, at the external-interface level the spec describes.
-/

namespace ArtifactRepro

/-- A compiled-artifact record: a contract file name, the contract symbol
inside it, the source path, and the compiled bytecode (a list of bytes).
This mirrors the data model: "a compiled-artifact record (name, source path,
bytecode)". -/
structure Artifact where
  fileName : String
  contractSymbol : String
  sourcePath : String
  bytecode : List Nat
deriving DecidableEq, Repr

/-- Modelled from the spec: a contract identifier string is "a bare filename,
or file:symbol"; an artifact matches an identifier when the identifier equals
its file name, or its file name followed by a colon and its contract symbol. -/
def identMatches (ident : String) (a : Artifact) : Bool :=
  ident == a.fileName || ident == a.fileName ++ ":" ++ a.contractSymbol

/-- A Solidity source unit: the bare file name, the contract symbol it
declares, and its path inside the project. -/
structure Source where
  fileName : String
  contractSymbol : String
  path : String
deriving DecidableEq, Repr

/-- A project has two recognized source scopes: main sources and test
sources (the spec calls them the "contract scope" and the "test scope"). -/
structure Project where
  mainSources : List Source
  testSources : List Source
deriving DecidableEq, Repr

/-- Modelled from the spec: the external tool produces compiled output split
into two disjoint collections, one per scope ("two artifact directories ...
one for main-source compilation output, one for test-source compilation
output"). -/
structure CompiledOutput where
  mainArtifacts : List Artifact
  testArtifacts : List Artifact
deriving DecidableEq, Repr

/-- Compiling one source produces its artifact; the compiler itself is
external, so it is passed in as a function from a source to its bytecode. -/
def compileArtifact (compile : Source → List Nat) (s : Source) : Artifact :=
  { fileName := s.fileName
    contractSymbol := s.contractSymbol
    sourcePath := s.path
    bytecode := compile s }

/-- The two compilation passes the spec distinguishes: a full-project pass
and a test-only pass. -/
inductive CompilationPass where
  | full
  | testOnly
deriving DecidableEq, Repr

/-- The sources a given pass compiles: the full pass covers both recognized
scopes, the test-only pass covers only the test sources. -/
def passSources : CompilationPass → Project → List Source
  | .full, p => p.mainSources ++ p.testSources
  | .testOnly, p => p.testSources

/-- Modelled from the spec: running a compilation pass populates the on-disk
compiled output; the full pass fills both scopes, the test-only pass fills
only the test scope. -/
def runPass (pass : CompilationPass) (compile : Source → List Nat)
    (p : Project) : CompiledOutput :=
  match pass with
  | .full =>
      { mainArtifacts := p.mainSources.map (compileArtifact compile)
        testArtifacts := p.testSources.map (compileArtifact compile) }
  | .testOnly =>
      { mainArtifacts := []
        testArtifacts := p.testSources.map (compileArtifact compile) }

/-- Modelled from the spec: the conforming in-memory artifact index is
populated from the union of both scopes of the compiled output ("a
lookup-by-name operation should search the union of both"). -/
def loadAllScopes (out : CompiledOutput) : List Artifact :=
  out.testArtifacts ++ out.mainArtifacts

/-- Modelled from the spec: the defective in-memory index "is populated only
from the test-source scope". -/
def loadTestScopeOnly (out : CompiledOutput) : List Artifact :=
  out.testArtifacts

/-- Modelled from the spec: the bytecode-lookup capability (vm.getCode)
searches the in-memory artifact index for the first artifact matching the
identifier and returns its bytecode; when none matches it fails with the
message "no matching artifact found". -/
def lookupIndex (index : List Artifact) (ident : String) :
    Except String (List Nat) :=
  match index.find? (fun a => identMatches ident a) with
  | some a => .ok a.bytecode
  | none => .error ("no matching artifact found")

/-! The concrete fixtures of this repository, read off the source files. -/

/-- contracts/SimpleContract.sol, the main-scope fixture contract. -/
def simpleContractSource : Source :=
  { fileName := "SimpleContract.sol"
    contractSymbol := "SimpleContract"
    path := "contracts/SimpleContract.sol" }

/-- contracts/Greeter.sol, the second main-scope fixture contract. -/
def greeterSource : Source :=
  { fileName := "Greeter.sol"
    contractSymbol := "Greeter"
    path := "contracts/Greeter.sol" }

/-- test/solidity/Test.t.sol, the test-scope fixture ("This test file
compiles to cache/test-artifacts/test/solidity/Test.t.sol/TestContract.json"). -/
def testContractSource : Source :=
  { fileName := "Test.t.sol"
    contractSymbol := "TestContract"
    path := "test/solidity/Test.t.sol" }

/-- The reproduction project: two main sources and one test source. -/
def reproProject : Project :=
  { mainSources := [simpleContractSource, greeterSource]
    testSources := [testContractSource] }

/-! Helper lemmas about the lookup over the index. -/

/-- Every artifact in the conforming index built by a pass is the compiled
artifact of a source that the pass covers. -/
theorem mem_loadAllScopes_runPass {pass : CompilationPass}
    {compile : Source → List Nat} {p : Project} {a : Artifact}
    (ha : a ∈ loadAllScopes (runPass pass compile p)) :
    ∃ s ∈ passSources pass p, a = compileArtifact compile s := by
  cases pass <;>
    simp only [loadAllScopes, runPass, passSources, List.mem_append,
      List.mem_map, List.not_mem_nil, or_false] at ha ⊢
  · rcases ha with ⟨s, hs, rfl⟩ | ⟨s, hs, rfl⟩
    · exact ⟨s, Or.inr hs, rfl⟩
    · exact ⟨s, Or.inl hs, rfl⟩
  · rcases ha with ⟨s, hs, rfl⟩
    · exact ⟨s, hs, rfl⟩

/-- The compiled artifact of every source a pass covers is in the conforming
index built from that pass. -/
theorem compileArtifact_mem_loadAllScopes {pass : CompilationPass}
    {compile : Source → List Nat} {p : Project} {s : Source}
    (hs : s ∈ passSources pass p) :
    compileArtifact compile s ∈ loadAllScopes (runPass pass compile p) := by
  cases pass <;>
    simp only [loadAllScopes, runPass, passSources, List.mem_append,
      List.mem_map, List.not_mem_nil, or_false] at hs ⊢
  · rcases hs with hs | hs
    · exact Or.inr ⟨s, hs, rfl⟩
    · exact Or.inl ⟨s, hs, rfl⟩
  · exact ⟨s, hs, rfl⟩

/-- The bare file name of a source always matches its own compiled artifact. -/
theorem identMatches_fileName (compile : Source → List Nat) (s : Source) :
    identMatches s.fileName (compileArtifact compile s) = true := by
  simp [identMatches, compileArtifact]

/-- If some element of a list satisfies the predicate, find? returns some
element. -/
theorem find?_isSome_of_mem {α : Type} {p : α → Bool} {l : List α} {a : α}
    (ha : a ∈ l) (hp : p a = true) : ∃ b, l.find? p = some b := by
  cases h : l.find? p with
  | some b => exact ⟨b, rfl⟩
  | none => exact absurd hp (by simpa using List.find?_eq_none.1 h a ha)

/-- find? over an appended list returns the result on the left part when the
left part already has a hit. -/
theorem find?_append_left {α : Type} {p : α → Bool} {l₁ : List α}
    (l₂ : List α) {a : α} (h : l₁.find? p = some a) :
    (l₁ ++ l₂).find? p = some a := by
  induction l₁ with
  | nil => simp at h
  | cons x xs ih =>
      rw [List.cons_append]
      rw [List.find?_cons] at h ⊢
      cases hx : p x with
      | true => simpa [hx] using h
      | false =>
          simp only [hx] at h ⊢
          exact ih h

/-! The fixture contract SimpleContract, embedded from
contracts/SimpleContract.sol:

    contract SimpleContract \x7b
        uint256 public value;
        constructor(uint256 _value) \x7b value = _value; \x7d
        function setValue(uint256 _value) public \x7b value = _value; \x7d
    \x7d
-/

/-- Solidity uint256 values. -/
abbrev U256 := Fin (2 ^ 256)

/-- The storage of SimpleContract: its single state variable, value. -/
structure SimpleContractState where
  value : U256
deriving DecidableEq, Repr

namespace SimpleContract

/-- constructor(uint256 _value): value = _value. -/
def constructor (v : U256) : SimpleContractState :=
  { value := v }

/-- setValue(uint256 _value): value = _value. -/
def setValue (s : SimpleContractState) (v : U256) : SimpleContractState :=
  { s with value := v }

end SimpleContract

/-- Modelled from the spec: deploying the creation bytecode of SimpleContract
concatenated with the ABI-encoded constructor argument v creates a contract
whose storage is the result of running the constructor with v; deployment
yields no contract when there is no creation bytecode. -/
def deploySimpleContract (creationCode : List Nat) (v : U256) :
    Option SimpleContractState :=
  if creationCode = [] then none else some (SimpleContract.constructor v)

/-! The test suite, embedded from src/test/solidity/Test.t.sol: each test
function of contract TestContract, classified by what it does. -/

/-- What a test fixture does: a direct vm.getCode call asserted non-empty, a
getCode-then-create deployment, a proxy deployment through the upgrades
library, a diagnostic loop with try/catch, or a vm.getCode call wrapped in
vm.expectRevert. -/
inductive TestKind where
  | directGetCode (ident : String)
  | deployWithGetCode (ident : String)
  | deployProxy
  | diagnostic
  | expectRevertGetCode (ident : String)
deriving DecidableEq, Repr

/-- A test fixture: its function name and what it does. -/
structure TestFixture where
  name : String
  kind : TestKind
deriving DecidableEq, Repr

/-- The identifier of the package-scope contract the failing tests target. -/
def proxyIdent : String :=
  "TransparentUpgradeableProxy.sol:TransparentUpgradeableProxy"

/-- The nine test functions of contract TestContract in
src/test/solidity/Test.t.sol, in source order. -/
def testSuite : List TestFixture :=
  [ { name := "test_LOCAL_vmGetCode_SimpleContract_SHOULD_PASS"
      kind := .directGetCode ("SimpleContract.sol") },
    { name := "test_LOCAL_vmGetCode_Greeter_SHOULD_PASS"
      kind := .directGetCode ("Greeter.sol") },
    { name := "test_LOCAL_deployWithVmGetCode_SHOULD_PASS"
      kind := .deployWithGetCode ("SimpleContract.sol") },
    { name := "test_PACKAGE_vmGetCode_TransparentProxy_EXPECT_FAIL"
      kind := .directGetCode proxyIdent },
    { name := "test_PACKAGE_vmGetCode_viaCheatcodeAddress_EXPECT_FAIL"
      kind := .directGetCode proxyIdent },
    { name := "test_PACKAGE_deployTransparentProxy_EXPECT_FAIL"
      kind := .deployProxy },
    { name := "test_DIAGNOSTIC_showArtifactAvailability"
      kind := .diagnostic },
    { name := "test_DIAGNOSTIC_compareMethods"
      kind := .diagnostic },
    { name := "test_WORKAROUND_expectRevert_onPackageContract_SHOULD_PASS"
      kind := .expectRevertGetCode proxyIdent } ]

/-- Whether a fixture wraps its lookup in an expect-failure assertion. -/
def TestKind.isExpectRevert : TestKind → Bool
  | .expectRevertGetCode _ => true
  | _ => false

/-- Modelled from the spec: a fixture that wraps a lookup in an
expect-failure (vm.expectRevert) assertion passes exactly when the wrapped
lookup fails. -/
def expectRevertFixturePasses (index : List Artifact) (ident : String) :
    Bool :=
  match lookupIndex index ident with
  | .ok _ => false
  | .error _ => true

/-! The reproduction shell script, embedded from its two commands:

    set -euo pipefail
    rm -rf artifacts cache
    npx hardhat test solidity test/solidity/Test.t.sol
-/

/-- A command of the reproduction script: either rm -rf over a list of
targets, or the hardhat test-solidity command over a list of test files with
a list of extra flags. -/
inductive ShellCommand where
  | rmRf (targets : List String)
  | hardhatTestSolidity (testFiles : List String) (flags : List String)
deriving DecidableEq, Repr

/-- The reproduction script: its shell options (set -euo pipefail) and its
commands in order. -/
structure ReproScript where
  errexit : Bool
  nounset : Bool
  pipefail : Bool
  steps : List ShellCommand
deriving DecidableEq, Repr

/-- The script, read off the source: delete the artifacts and cache
directories, then run the Solidity test mode on test/solidity/Test.t.sol. -/
def reproduceScript : ReproScript :=
  { errexit := true
    nounset := true
    pipefail := true
    steps :=
      [ .rmRf ["artifacts", "cache"],
        .hardhatTestSolidity ["test/solidity/Test.t.sol"] [] ] }

/-- Running a list of commands under a given errexit setting, where the
environment assigns each command its exit status: with errexit set, execution
stops at the first failing command and its status is the exit status of the
script; the status of an empty script is 0, and otherwise the status of the
last command executed. -/
def runScript (exitOf : ShellCommand → Nat) (errexit : Bool) :
    List ShellCommand → Nat
  | [] => 0
  | [c] => exitOf c
  | c :: rest =>
      if errexit = true ∧ exitOf c ≠ 0 then exitOf c
      else runScript exitOf errexit rest

/-! The Hardhat configuration objects, embedded from src/hardhat.config.ts
and from the variant configuration file with npmFilesToBuild. -/

/-- The solidity section: compiler version and the optional list of npm
dependency files to build artifacts for. -/
structure SolidityBuildConfig where
  version : String
  npmFilesToBuild : Option (List String)
deriving DecidableEq, Repr

/-- The paths.tests section: the Solidity test-source directory. -/
structure TestPathsConfig where
  solidity : String
deriving DecidableEq, Repr

/-- The paths section: the optional main-source directory override and the
test-paths section. -/
structure PathsConfig where
  sources : Option String
  tests : TestPathsConfig
deriving DecidableEq, Repr

/-- The fsPermissions section: files and directories test execution may
read. -/
structure FsPermissionsConfig where
  readFile : List String
  readDirectory : List String
deriving DecidableEq, Repr

/-- The test.solidity section: the FFI toggle and the filesystem
permissions. -/
structure SolidityTestConfig where
  ffi : Bool
  fsPermissions : FsPermissionsConfig
deriving DecidableEq, Repr

/-- The whole configuration object. -/
structure HardhatConfig where
  solidity : SolidityBuildConfig
  paths : PathsConfig
  test : SolidityTestConfig
deriving DecidableEq, Repr

/-- The configuration object of src/hardhat.config.ts: compiler 0.8.20, no
main-source path override, test sources at ./test/solidity, ffi on, and the
two permission allow-lists. -/
def config : HardhatConfig :=
  { solidity :=
      { version := "0.8.20"
        npmFilesToBuild := none }
    paths :=
      { sources := none
        tests := { solidity := "./test/solidity" } }
    test :=
      { ffi := true
        fsPermissions :=
          { readFile := ["./hardhat.config.ts", "./artifacts/**/*.json"]
            readDirectory := ["./artifacts", "./artifacts/contracts"] } } }

/-- The variant configuration object with npmFilesToBuild: compiler 0.8.22,
five OpenZeppelin proxy files built from npm, otherwise the same surface. -/
def npmConfig : HardhatConfig :=
  { solidity :=
      { version := "0.8.22"
        npmFilesToBuild := some
          [ "@openzeppelin/contracts/proxy/transparent/TransparentUpgradeableProxy.sol",
            "@openzeppelin/contracts/proxy/transparent/ProxyAdmin.sol",
            "@openzeppelin/contracts/proxy/ERC1967/ERC1967Proxy.sol",
            "@openzeppelin/contracts/proxy/beacon/UpgradeableBeacon.sol",
            "@openzeppelin/contracts/proxy/beacon/BeaconProxy.sol" ] }
    paths :=
      { sources := none
        tests := { solidity := "./test/solidity" } }
    test :=
      { ffi := true
        fsPermissions :=
          { readFile := ["./hardhat.config.ts", "./artifacts/**/*.json"]
            readDirectory := ["./artifacts", "./artifacts/contracts"] } } }

/-! Theorems settling the claims. -/

/-- C1: for every contract identifier compiled from any recognized source
scope (main sources or test sources) by a compilation pass, the conforming
bytecode lookup on that identifier returns non-empty bytecode, given that
compilation produces non-empty bytecode for the sources the pass covers. -/
theorem conforming_lookup_compiled_nonempty
    (pass : CompilationPass) (compile : Source → List Nat) (p : Project)
    (s : Source) (hs : s ∈ passSources pass p)
    (hc : ∀ t ∈ passSources pass p, compile t ≠ []) :
    ∃ code,
      lookupIndex (loadAllScopes (runPass pass compile p)) s.fileName
        = Except.ok code ∧ code ≠ [] := by
  obtain ⟨b, hb⟩ := find?_isSome_of_mem
    (@compileArtifact_mem_loadAllScopes pass compile p s hs)
    (identMatches_fileName compile s)
  obtain ⟨t, ht, rfl⟩ := mem_loadAllScopes_runPass (List.mem_of_find?_eq_some hb)
  exact ⟨compile t, by simp [lookupIndex, hb, compileArtifact], hc t ht⟩

/-- Witness for C1 at the full pass of the reproduction project on
SimpleContract.sol with a one-byte compiler. -/
theorem conforming_lookup_compiled_nonempty_witness :
    (simpleContractSource ∈ passSources .full reproProject
      ∧ ∀ t ∈ passSources .full reproProject, (fun _ : Source => [96]) t ≠ [])
    ∧ ∃ code,
        lookupIndex
          (loadAllScopes (runPass .full (fun _ : Source => [96]) reproProject))
          simpleContractSource.fileName = Except.ok code ∧ code ≠ [] :=
  ⟨⟨by decide, by decide⟩,
    conforming_lookup_compiled_nonempty .full (fun _ => [96]) reproProject
      simpleContractSource (by decide) (by decide)⟩

/-- C2: the conforming lookup is scope-agnostic: when an artifact matching
the identifier exists on disk after the test-only pass, the lookup result
over the test-only output equals the lookup result over the full-project
output, so the result does not depend on which pass produced the artifact. -/
theorem lookup_scope_agnostic (compile : Source → List Nat) (p : Project)
    (ident : String)
    (h : ∃ a ∈ loadAllScopes (runPass .testOnly compile p),
      identMatches ident a = true) :
    lookupIndex (loadAllScopes (runPass .testOnly compile p)) ident
      = lookupIndex (loadAllScopes (runPass .full compile p)) ident := by
  obtain ⟨a, ha, hm⟩ := h
  obtain ⟨b, hb⟩ := find?_isSome_of_mem ha hm
  have h1 : loadAllScopes (runPass .testOnly compile p)
      = p.testSources.map (compileArtifact compile) := by
    simp [loadAllScopes, runPass]
  have h2 : loadAllScopes (runPass .full compile p)
      = p.testSources.map (compileArtifact compile)
        ++ p.mainSources.map (compileArtifact compile) := rfl
  rw [h1] at hb
  have hfull := find?_append_left
    (p.mainSources.map (compileArtifact compile)) hb
  simp only [lookupIndex, h1, h2, hb, hfull]

/-- Witness for C2 at the reproduction project, looking up the test
file name of the test fixture. -/
theorem lookup_scope_agnostic_witness :
    (∃ a ∈ loadAllScopes
        (runPass .testOnly (fun _ : Source => [96]) reproProject),
      identMatches ("Test.t.sol") a = true)
    ∧ lookupIndex
        (loadAllScopes (runPass .testOnly (fun _ : Source => [96]) reproProject))
        "Test.t.sol"
      = lookupIndex
          (loadAllScopes (runPass .full (fun _ : Source => [96]) reproProject))
          "Test.t.sol" :=
  ⟨⟨compileArtifact (fun _ => [96]) testContractSource, by decide, by decide⟩,
    lookup_scope_agnostic (fun _ => [96]) reproProject ("Test.t.sol")
      ⟨compileArtifact (fun _ => [96]) testContractSource, by decide, by decide⟩⟩

/-- C3: the conforming lookup fails, with the not-found message, exactly
when no artifact in either scope of the compiled output matches the
identifier; in particular an artifact anywhere on disk implies the lookup
succeeds. -/
theorem lookup_fails_iff_no_artifact (out : CompiledOutput) (ident : String) :
    lookupIndex (loadAllScopes out) ident
        = Except.error ("no matching artifact found")
      ↔ ∀ a, a ∈ out.mainArtifacts ∨ a ∈ out.testArtifacts →
          identMatches ident a = false := by
  have hmem : ∀ a : Artifact,
      a ∈ loadAllScopes out ↔ a ∈ out.mainArtifacts ∨ a ∈ out.testArtifacts := by
    intro a
    simp [loadAllScopes, List.mem_append, or_comm]
  unfold lookupIndex
  cases h : (loadAllScopes out).find? (fun a => identMatches ident a) with
  | some a =>
      simp only []
      constructor
      · intro hcontra
        exact absurd hcontra (by simp)
      · intro hall
        have hp := List.find?_some h
        have ha := (hmem a).1 (List.mem_of_find?_eq_some h)
        simp [hall a ha] at hp
  | none =>
      simp only []
      constructor
      · intro _ a ha
        have := List.find?_eq_none.1 h a ((hmem a).2 ha)
        simpa using this
      · intro _
        trivial

/-- C4: defect scenario, after clearing caches and running only the
test-only pass the defective index holds only test-scope artifacts, so the
lookup of SimpleContract.sol fails with "no matching artifact found" for
every compiler, even though SimpleContract is a reachable main source of the
project. -/
theorem testOnly_lookup_simpleContract_fails (compile : Source → List Nat) :
    simpleContractSource ∈ reproProject.mainSources
    ∧ lookupIndex (loadTestScopeOnly (runPass .testOnly compile reproProject))
          "SimpleContract.sol"
        = Except.error ("no matching artifact found") :=
  ⟨by decide, rfl⟩

/-- C5: after the full pass, looking up SimpleContract.sol yields bytecode
of positive length; deploying that bytecode with ABI-encoded constructor
argument 100 yields a contract storing 100, and calling the setter with 42
then stores 42. The hypothesis says compilation of SimpleContract yields
some bytecode. -/
theorem full_compile_deploy_scenario (compile : Source → List Nat)
    (hc : compile simpleContractSource ≠ []) :
    ∃ code,
      lookupIndex (loadAllScopes (runPass .full compile reproProject))
          "SimpleContract.sol" = Except.ok code
      ∧ 0 < code.length
      ∧ ∃ st, deploySimpleContract code 100 = some st
          ∧ st.value = 100
          ∧ (SimpleContract.setValue st 42).value = 42 := by
  refine ⟨compile simpleContractSource, rfl, List.length_pos.mpr hc,
    SimpleContract.constructor 100, ?_, rfl, rfl⟩
  simp [deploySimpleContract, hc]

/-- Witness for C5 with a one-byte compiler. -/
theorem full_compile_deploy_scenario_witness :
    ((fun _ : Source => [96]) simpleContractSource ≠ [])
    ∧ ∃ code,
        lookupIndex
          (loadAllScopes (runPass .full (fun _ : Source => [96]) reproProject))
          "SimpleContract.sol" = Except.ok code
        ∧ 0 < code.length
        ∧ ∃ st, deploySimpleContract code 100 = some st
            ∧ st.value = 100
            ∧ (SimpleContract.setValue st 42).value = 42 :=
  ⟨by decide, full_compile_deploy_scenario (fun _ => [96]) (by decide)⟩

/-- C6: exactly one fixture of the test suite wraps a lookup in the
expect-failure assertion, it targets the package-scope identifier
TransparentUpgradeableProxy.sol:TransparentUpgradeableProxy, and an
expect-failure fixture passes precisely when the wrapped lookup fails. -/
theorem workaround_expectRevert_unique_and_sound :
    (testSuite.filter (fun f => f.kind.isExpectRevert)).length = 1
    ∧ (∃ f ∈ testSuite,
        f.name = "test_WORKAROUND_expectRevert_onPackageContract_SHOULD_PASS"
        ∧ f.kind = .expectRevertGetCode proxyIdent)
    ∧ ∀ index : List Artifact,
        (expectRevertFixturePasses index proxyIdent = true
          ↔ ∃ e, lookupIndex index proxyIdent = Except.error e) := by
  refine ⟨by decide,
    ⟨{ name := "test_WORKAROUND_expectRevert_onPackageContract_SHOULD_PASS"
       kind := .expectRevertGetCode proxyIdent }, by decide, rfl, rfl⟩, ?_⟩
  intro index
  unfold expectRevertFixturePasses
  cases h : lookupIndex index proxyIdent with
  | ok code => simp
  | error e => simp

/-- C7: the reproduction script runs with errexit set and consists of
exactly two commands in order: one deletion of the artifacts and cache
directories, then the single hardhat solidity-test command on the one
test-source file with no extra flags; the deletion occurs exactly once. -/
theorem reproduce_script_shape :
    reproduceScript.errexit = true
    ∧ reproduceScript.steps.length = 2
    ∧ reproduceScript.steps.get? 0
        = some (.rmRf ["artifacts", "cache"])
    ∧ reproduceScript.steps.get? 1
        = some (.hardhatTestSolidity ["test/solidity/Test.t.sol"] [])
    ∧ reproduceScript.steps.countP
        (fun c => match c with | .rmRf _ => true | _ => false) = 1 := by
  decide

/-- C8: whenever the environment gives the test command a non-zero exit
status, the script under its errexit setting exits non-zero: the failure of
the underlying test command is propagated, never masked. -/
theorem script_propagates_test_failure (exitOf : ShellCommand → Nat)
    (h : exitOf (.hardhatTestSolidity ["test/solidity/Test.t.sol"] []) ≠ 0) :
    runScript exitOf reproduceScript.errexit reproduceScript.steps ≠ 0 := by
  show (if (true = true ∧ exitOf (ShellCommand.rmRf ["artifacts", "cache"]) ≠ 0)
      then exitOf (ShellCommand.rmRf ["artifacts", "cache"])
      else exitOf
        (ShellCommand.hardhatTestSolidity ["test/solidity/Test.t.sol"] [])) ≠ 0
  split
  · rename_i hrm
    exact hrm.2
  · exact h

/-- Witness for C8 with an environment in which only the test command
fails. -/
theorem script_propagates_test_failure_witness :
    ((fun c => match c with
        | ShellCommand.hardhatTestSolidity _ _ => 1
        | _ => 0)
      (ShellCommand.hardhatTestSolidity ["test/solidity/Test.t.sol"] []) ≠ 0)
    ∧ runScript
        (fun c => match c with
          | ShellCommand.hardhatTestSolidity _ _ => 1
          | _ => 0)
        reproduceScript.errexit reproduceScript.steps ≠ 0 :=
  ⟨by decide,
    script_propagates_test_failure
      (fun c => match c with
        | ShellCommand.hardhatTestSolidity _ _ => 1
        | _ => 0)
      (by decide)⟩

/-- C9 counterexample: the claim says the configuration object carries
source-directory overrides for both main and test Solidity sources, but
neither configuration object overrides the main-source directory: the paths
section of each sets only the test-source directory and leaves the
main-source directory at its default. -/
theorem config_main_source_override_absent :
    config.paths.sources = none ∧ npmConfig.paths.sources = none :=
  ⟨rfl, rfl⟩

/-- C9 amended: the configuration objects specify a compiler version, a
source-directory override for the test Solidity sources only (no main-source
override), the FFI toggle for test contracts, and the filesystem-permission
allow-lists of readable files and readable directories. -/
theorem config_surface_amended :
    config.solidity.version = "0.8.20"
    ∧ config.paths.sources = none
    ∧ config.paths.tests.solidity = "./test/solidity"
    ∧ config.test.ffi = true
    ∧ config.test.fsPermissions.readFile
        = ["./hardhat.config.ts", "./artifacts/**/*.json"]
    ∧ config.test.fsPermissions.readDirectory
        = ["./artifacts", "./artifacts/contracts"]
    ∧ npmConfig.solidity.version = "0.8.22"
    ∧ npmConfig.paths.sources = none
    ∧ npmConfig.paths.tests.solidity = "./test/solidity"
    ∧ npmConfig.test.ffi = true :=
  ⟨rfl, rfl, rfl, rfl, rfl, rfl, rfl, rfl, rfl, rfl⟩

/-- C10: constructing SimpleContract with v establishes value() = v; for
every prior state, setValue(v) leaves value() = v; and the resulting state
after setValue is independent of the prior state, so the single storage
variable value is the only slot written and the write is unconditional
last-write-wins. -/
theorem simpleContract_storage_semantics :
    (∀ v : U256, (SimpleContract.constructor v).value = v)
    ∧ (∀ (s : SimpleContractState) (v : U256),
        (SimpleContract.setValue s v).value = v)
    ∧ (∀ (s₁ s₂ : SimpleContractState) (v : U256),
        SimpleContract.setValue s₁ v = SimpleContract.setValue s₂ v) :=
  ⟨fun _ => rfl, fun _ _ => rfl, fun _ _ _ => rfl⟩

end ArtifactRepro
